import Mathlib

/-!
Verification development for the `linkedin-games-scraper` repository.

The definitions below are a shallow embedding of the Python code in
`src/linkedin_games_scraper/solver.py` (the `GameSolver` class).  Captured
HTTP exchanges are modelled as records with a URL and an optional response
body; the body itself is an `Option` so that a present-but-undecodable body
(a `json.loads` failure) is distinguishable from an absent response.
-/

/-- `startsWithList n h` holds when `n` is an initial segment of `h`. -/
def startsWithList : List Char → List Char → Bool
  | [], _ => true
  | _ :: _, [] => false
  | a :: as, b :: bs => a == b && startsWithList as bs

/-- `containsList n h` holds when `n` occurs contiguously inside `h`. -/
def containsList (needle : List Char) : List Char → Bool
  | [] => startsWithList needle []
  | h :: t => startsWithList needle (h :: t) || containsList needle t

/-- Python's `needle in haystack` on strings: substring containment. -/
def pyInStr (needle haystack : String) : Bool :=
  containsList needle.data haystack.data

/-- Python's `s.strip(c)` for a single character: remove every leading and
trailing occurrence of `c`. -/
def pyStrip (c : Char) (s : String) : String :=
  String.mk (((s.data.dropWhile (· = c)).reverse.dropWhile (· = c)).reverse)

example : pyInStr "abc" "xxabcy" = true := by decide
example : pyInStr "abd" "xxabcy" = false := by decide
example : pyStrip '"' "\"tok\"" = "tok" := by rfl

/-- A JSON value, as produced by Python's `json.loads`. -/
inductive Json where
  | null
  | str (s : String)
  | num (n : Int)
  | bool (b : Bool)
  | arr (elems : List Json)
  | obj (fields : List (String × Json))

/-- Python `d[k]` on a decoded JSON object (`none` models a raised
`KeyError`/`TypeError`). -/
def Json.getKey : Json → String → Option Json
  | .obj fields, k => fields.lookup k
  | _, _ => none

/-- Python `l[i]` on a decoded JSON array (`none` models a raised
`IndexError`/`TypeError`). -/
def Json.getIdx : Json → Nat → Option Json
  | .arr elems, i => elems.get? i
  | _, _ => none

/-- Python `j == s` for a string literal `s`: true exactly on the equal
JSON string, false on every other JSON value (no exception). -/
def Json.eqStr : Json → String → Bool
  | .str t, s => t == s
  | _, _ => false

example : (Json.obj [("a", Json.num 1)]).getKey "a" = some (Json.num 1) := by rfl
example : (Json.str "ONE").eqStr "ONE" = true := by rfl
example : (Json.num 3).eqStr "ONE" = false := by rfl

/-! ## Captured exchanges and the exchange classifier

`GameSolver._find_game_response` (solver.py lines 118-145): scan
`self.driver.requests` in capture order, skip exchanges without a response,
match the URL against three substring predicates plus one exclusion, and
return the JSON-decoded body of the first match whose body decodes; a body
that fails to decode is logged and the scan continues.
-/

/-- One captured request/response pair.  `response = none` models an exchange
with no response; `response = some none` models a populated response whose
body fails UTF-8/JSON decoding; `response = some (some v)` models a populated
response whose body decodes to `v`. -/
structure CapturedRequest (V : Type) where
  url : String
  response : Option (Option V)

/-- `GameSolver.GAME_TYPE_IDS` (solver.py lines 46-53). -/
def GAME_TYPE_IDS : List (String × Nat) :=
  [("pinpoint", 1), ("crossclimb", 2), ("queens", 3),
   ("tango", 5), ("zip", 6), ("mini_sudoku", 7)]

/-- Python `self.GAME_TYPE_IDS[game]` (the six keys are all present, so the
`KeyError` path cannot trigger for the names the solver uses). -/
def gameTypeIdOf (game : String) : Nat :=
  (GAME_TYPE_IDS.lookup game).getD 0

/-- The URL condition of `_find_game_response` (solver.py lines 128-133):
the puzzle-data endpoint token, the numeric game-type identifier rendered
as in the f-string `f"gameTypeId:{game_type_id}"`, the games-data query
family token, and the exclusion of the games-pages family token. -/
def urlMatchesGame (gameTypeId : Nat) (url : String) : Bool :=
  pyInStr "voyager/api/graphql" url
    && pyInStr ("gameTypeId:" ++ toString gameTypeId) url
    && pyInStr "voyagerIdentityDashGames" url
    && !(pyInStr "voyagerIdentityDashGamesPages" url)

/-- `GameSolver._find_game_response` (solver.py lines 118-145). -/
def findGameResponse {V : Type} (gameTypeId : Nat) :
    List (CapturedRequest V) → Option V
  | [] => none
  | r :: rs =>
    match r.response with
    | none => findGameResponse gameTypeId rs
    | some body =>
      if urlMatchesGame gameTypeId r.url then
        match body with
        | some v => some v
        | none => findGameResponse gameTypeId rs
      else
        findGameResponse gameTypeId rs

/-- Eligibility as the claim states it: a populated response and a URL
passing the classifier's substring predicates. -/
def eligibleRequest {V : Type} (gameTypeId : Nat) (r : CapturedRequest V) : Bool :=
  r.response.isSome && urlMatchesGame gameTypeId r.url

/-! ## CrossClimb decoder

`GameSolver._find_crossclimb_solution` (solver.py lines 160-179): sort the
rungs by `solutionRungIndex` (Python's `sorted`, a stable sort) and emit the
`(solutionRungIndex, word)` pairs in sorted order.
-/

/-- One rung of a CrossClimb puzzle payload. -/
structure Rung where
  solutionRungIndex : Nat
  word : String
  deriving DecidableEq

/-- The sort key comparison `lambda x: x["solutionRungIndex"]` of
solver.py line 168. -/
def rungLE (x y : Rung) : Prop :=
  x.solutionRungIndex ≤ y.solutionRungIndex

instance : DecidableRel rungLE := fun x y =>
  inferInstanceAs (Decidable (x.solutionRungIndex ≤ y.solutionRungIndex))

instance : IsTotal Rung rungLE :=
  ⟨fun x y => Nat.le_total x.solutionRungIndex y.solutionRungIndex⟩

instance : IsTrans Rung rungLE :=
  ⟨fun _ _ _ h h' => Nat.le_trans h h'⟩

/-- Lines 168-169 of solver.py: `sorted(rungs, key=...)` followed by the
pair comprehension.  Python's `sorted` is a stable sort; `List.insertionSort`
is stable as well, so the two agree on every input. -/
def crossclimbSolution (rungs : List Rung) : List (Nat × String) :=
  (rungs.insertionSort rungLE).map (fun rung => (rung.solutionRungIndex, rung.word))

example :
    crossclimbSolution [⟨2, "c"⟩, ⟨0, "a"⟩, ⟨1, "b"⟩] = [(0, "a"), (1, "b"), (2, "c")] := by
  decide

/-! ## Tango decoder

`GameSolver._find_tango_solution` (solver.py lines 231-252): locate the
token sequence at `data["included"][0]["gamePuzzle"]["lotkaGamePuzzle"]
["solution"]` and build a string with `"1"` for each token `== "ONE"` and
`"0"` for every other token.
-/

/-- The accumulation loop of solver.py lines 239-244. -/
def tangoFromTokens (solutionArray : List Json) : String :=
  solutionArray.foldl
    (fun solution item => if item.eqStr "ONE" then solution ++ "1" else solution ++ "0") ""

/-- `GameSolver._find_tango_solution` (solver.py lines 231-252): classifier
lookup for game type id 5, the fixed field path, then the token mapping.
A `solution` field that is not a JSON array is a field-path/type failure,
caught at the extractor boundary (`except` at line 250). -/
def findTangoSolution (requests : List (CapturedRequest Json)) : Option String :=
  match findGameResponse (gameTypeIdOf "tango") requests with
  | none => none
  | some data =>
    match (((((data.getKey "included").bind (·.getIdx 0)).bind
        (·.getKey "gamePuzzle")).bind (·.getKey "lotkaGamePuzzle")).bind
        (·.getKey "solution")) with
    | some (.arr solutionArray) => some (tangoFromTokens solutionArray)
    | _ => none

/-- The body `{"included":[{"gamePuzzle":{"lotkaGamePuzzle":{"solution":
["ONE","TWO","ONE"]}}}]}` of the spec's end-to-end Tango example. -/
def tangoExampleBody : Json :=
  .obj [("included", .arr [
    .obj [("gamePuzzle", .obj [
      ("lotkaGamePuzzle", .obj [
        ("solution", .arr [.str "ONE", .str "TWO", .str "ONE"])])])]])]

/-- A captured exchange whose URL matches game type `tango` and whose body
decodes to `tangoExampleBody`. -/
def tangoExampleRequest : CapturedRequest Json :=
  { url := "https://www.linkedin.com/voyager/api/graphql?variables=(gameTypeId:5)&queryId=voyagerIdentityDashGames.x"
    response := some (some tangoExampleBody) }

/-! ## Mini Sudoku decoder

`GameSolver._find_mini_sudoku_solution` (solver.py lines 254-313): search
the `included` array for the item holding a `miniSudokuGamePuzzle`, read the
flat `solution` sequence, default `gridRowSize` to 6, `presetCellIdxes` to
`[]` and `name` to `"Unknown"`, log the `gridSize`-length rows, store the
flat sequence, and return it.  The nested dictionaries are modelled as
structures with `Option` fields standing for `dict.get` accesses.
-/

/-- The `miniSudokuGamePuzzle` object.  `solution`'s `none` models a missing
key (line 285 indexes it directly, raising `KeyError`); the other fields are
read with `.get` and a default. -/
structure MiniSudokuGamePuzzle where
  solution : Option (List Nat)
  gridRowSize : Option Nat
  presetCellIdxes : Option (List Nat)
  name : Option String
  deriving DecidableEq

/-- The `gamePuzzle` object of an `included` item: a wrapper whose
`miniSudokuGamePuzzle` key is populated only on the Mini Sudoku item
(line 265 reads it with `.get`). -/
structure MiniGamePuzzle where
  miniSudokuGamePuzzle : Option MiniSudokuGamePuzzle
  deriving DecidableEq

/-- One item of the `included` array, as inspected at lines 263-268. -/
structure MiniIncludedItem where
  gamePuzzle : Option MiniGamePuzzle
  deriving DecidableEq

/-- The decoded body of a Mini Sudoku response. -/
structure MiniBody where
  included : Option (List MiniIncludedItem)
  deriving DecidableEq

/-- The record stored in `self.results["data"]["mini_sudoku"]`
(solver.py lines 301-306). -/
structure MiniSudokuStored where
  solution : List Nat
  grid_size : Nat
  preset_cells : List Nat
  title : String
  deriving DecidableEq

/-- The diagnostic row partition of solver.py lines 295-299: row `i` is
`solution[i*grid_size : (i+1)*grid_size]`. -/
def miniSudokuRows (gridSize : Nat) (solution : List Nat) : List (List Nat) :=
  (List.range gridSize).map (fun i => (solution.drop (i * gridSize)).take gridSize)

/-- The search loop of solver.py lines 263-268: first `included` item whose
`gamePuzzle` is populated and holds a `miniSudokuGamePuzzle`. -/
def findMiniPuzzle (body : MiniBody) : Option MiniSudokuGamePuzzle :=
  match body.included with
  | none => none
  | some [] => none
  | some items => items.findSome? (fun item => (item.gamePuzzle).bind (·.miniSudokuGamePuzzle))

/-- `GameSolver._find_mini_sudoku_solution` (solver.py lines 254-313),
returning the record stored in `self.results` (whose `solution` field is
also the function's return value). -/
def findMiniSudokuStored (requests : List (CapturedRequest MiniBody)) :
    Option MiniSudokuStored :=
  match findGameResponse (gameTypeIdOf "mini_sudoku") requests with
  | none => none
  | some body =>
    match findMiniPuzzle body with
    | none => none
    | some puzzle =>
      match puzzle.solution with
      | none => none
      | some solution =>
        some { solution := solution
               grid_size := puzzle.gridRowSize.getD 6
               preset_cells := puzzle.presetCellIdxes.getD []
               title := puzzle.name.getD "Unknown" }

/-- A captured exchange around an arbitrary Mini Sudoku puzzle payload; the
URL matches game type id 7 and the body decodes.  A leading item without a
game puzzle exercises the search loop. -/
def miniExampleRequest (puzzle : MiniSudokuGamePuzzle) : CapturedRequest MiniBody :=
  { url := "https://www.linkedin.com/voyager/api/graphql?variables=(gameTypeId:7)&queryId=voyagerIdentityDashGames.x"
    response := some (some ⟨some [⟨none⟩, ⟨some ⟨some puzzle⟩⟩]⟩) }

/-! ## Leaderboard aggregator

`GameSolver.find_leaderboard_data` (solver.py lines 439-468).  The nested
dictionaries of a leaderboard entry are modelled as structures whose
`Option` fields stand for `dict.get` results.  Python raises
`AttributeError` when `.get` is chained onto a `None` result
(`entry.get("playerDetails").get("player")` with `playerDetails` absent);
that exception is modelled as `Except.error`, and it is caught only by the
per-exchange `except` clause of line 466 — aborting the remaining entries
of the exchange while keeping everything already merged.
-/

/-- The `profile` object: `firstName` read with `.get` (line 458). -/
structure PlayerProfile where
  firstName : Option String
  deriving DecidableEq

/-- The `player` object of `playerDetails`. -/
structure LBPlayer where
  profile : Option PlayerProfile
  deriving DecidableEq

/-- The `playerDetails` object of a leaderboard entry.  `playerUrn` is the
player identity token.  Modelled from the spec: the per-user filter variant
of `find_leaderboard_data` (imported by `main.py` via `GameSolver(user=...)`
but absent from the copy of solver.py in this tree) reads the entry's player
identity token; the spec does not describe an absent-token case, so the
token is a plain string field. -/
structure PlayerDetails where
  player : Option LBPlayer
  playerUrn : String
  deriving DecidableEq

/-- The `gameScore` object: both fields read with `.get` (lines 460-461). -/
structure LBGameScore where
  timeElapsed : Option Int
  totalGuessCount : Option Int
  deriving DecidableEq

/-- One element of the leaderboard `elements` collection. -/
structure LBEntry where
  playerDetails : Option PlayerDetails
  gameScore : Option LBGameScore
  isFlawless : Option Bool
  deriving DecidableEq

/-- The per-player score record built at lines 459-463, with the literal
field names `time`, `guessCount`, `flawless`. -/
structure PlayerScore where
  time : Option Int
  guessCount : Option Int
  flawless : Option Bool
  deriving DecidableEq

/-- Extraction of one entry (solver.py lines 458-463).  `Except.error ()`
models the `AttributeError` raised by `.get` on `None`: any missing
`playerDetails`, `player`, `profile` or `gameScore` raises; a missing leaf
field (`firstName`, `timeElapsed`, `totalGuessCount`, `isFlawless`) yields
`None` without raising. -/
def extractEntry (entry : LBEntry) : Except Unit (Option String × PlayerScore) :=
  match entry.playerDetails with
  | none => .error ()
  | some details =>
    match details.player with
    | none => .error ()
    | some player =>
      match player.profile with
      | none => .error ()
      | some profile =>
        match entry.gameScore with
        | none => .error ()
        | some gameScore =>
          .ok (profile.firstName,
            { time := gameScore.timeElapsed
              guessCount := gameScore.totalGuessCount
              flawless := entry.isFlawless })

/-- The object found under the selected top-level field name:
`.get("elements", [])` at lines 452/454. -/
structure LBElements where
  elements : Option (List LBEntry)
  deriving DecidableEq

/-- The top-level `data` object of a decoded leaderboard body, with the two
possible field names of lines 451-454. -/
structure LBDataField where
  identityDashGameConnectionsEntitiesByOptedInToLeaderboardAndPlayed : Option LBElements
  identityDashGameConnectionsEntitiesByLeaderboardSnapshotV2 : Option LBElements
  deriving DecidableEq

/-- A decoded leaderboard response body: `data.get("data", {})`
at line 450. -/
structure LBBody where
  data : Option LBDataField
  deriving DecidableEq

/-- Entry-collection selection of solver.py lines 450-454: if the opted-in
field name is present it is authoritative; otherwise the snapshot field is
consulted; every `.get` default collapses to the empty collection. -/
def entriesOf (body : LBBody) : List LBEntry :=
  match body.data with
  | none => []
  | some d =>
    match d.identityDashGameConnectionsEntitiesByOptedInToLeaderboardAndPlayed with
    | some o => o.elements.getD []
    | none =>
      match d.identityDashGameConnectionsEntitiesByLeaderboardSnapshotV2 with
      | some o => o.elements.getD []
      | none => []

/-- The request filter of solver.py line 442: the graphql endpoint token,
the leaderboard query-family token, and one of the two known query ids. -/
def lbUrlMatch (url : String) : Bool :=
  pyInStr "voyager/api/graphql" url
    && pyInStr "voyagerIdentityDashGameConnectionsEntities" url
    && (pyInStr "c37afe5a2cada33789b5a636e62147ae" url
        || pyInStr "370a22a07dce5feba0a603ed03e4c908" url)

/-- Python `s.lower()`, restricted to its ASCII behaviour: lower-case every
character. -/
def pyLower (s : String) : String :=
  String.mk (s.data.map Char.toLower)

/-- Modelled from the spec: the per-user filter of the
`find_leaderboard_data` variant missing from this tree — "skip entries
whose player identity token does not contain the configured user's identity
substring (case-insensitive)". -/
def passesUserFilter (user : String) (entry : LBEntry) : Bool :=
  match entry.playerDetails with
  | some details => pyInStr (pyLower user) (pyLower details.playerUrn)
  | none => false

/-- The filter applied only when a user is configured (`user = none` is the
behaviour of the solver.py copy in this tree, which has no filter). -/
def entryAdmitted (user : Option String) (entry : LBEntry) : Bool :=
  match user with
  | none => true
  | some u => passesUserFilter u entry

/-- Python `dict.__setitem__`: update the value in place when the key is
present, append otherwise. -/
def pyDictInsert {κ ν : Type} [DecidableEq κ] (m : List (κ × ν)) (k : κ) (v : ν) :
    List (κ × ν) :=
  if m.any (fun p => decide (p.1 = k)) then
    m.map (fun p => if p.1 = k then (k, v) else p)
  else
    m ++ [(k, v)]

/-- Python `dict.get`/`dict.__getitem__` on the model: the value stored at
`k`, if any. -/
def pyDictFind {κ ν : Type} [DecidableEq κ] (m : List (κ × ν)) (k : κ) : Option ν :=
  (m.find? (fun p => decide (p.1 = k))).map (·.2)

/-- The leaderboard mapping built by `find_leaderboard_data`: keyed by the
value extracted as `player_name` (line 458), i.e. the entry's `firstName`. -/
abbrev LBMap := List (Option String × PlayerScore)

/-- The entry loop of solver.py lines 457-464 (plus the spec-modelled user
filter).  An admitted entry is extracted and merged; an extraction error is
the `AttributeError` escaping to the per-exchange handler, so the remaining
entries of this exchange are dropped and the map built so far is kept. -/
def processEntries (user : Option String) : List LBEntry → LBMap → LBMap
  | [], m => m
  | entry :: rest, m =>
    if entryAdmitted user entry then
      match extractEntry entry with
      | .error _ => m
      | .ok (name, score) => processEntries user rest (pyDictInsert m name score)
    else
      processEntries user rest m

/-- The entries contributed by one captured exchange: none if the response
is absent (line 444) or its body fails to decode (the `except` at line 466
catching the `json.loads` failure); otherwise the selected collection. -/
def requestEntries (r : CapturedRequest LBBody) : List LBEntry :=
  match r.response with
  | some (some body) => entriesOf body
  | _ => []

/-- The exchange loop of solver.py lines 443-467, threading the single
`leaderboard_data` dictionary through the filtered exchanges. -/
def findLBAux (user : Option String) : List (CapturedRequest LBBody) → LBMap → LBMap
  | [], m => m
  | r :: rs, m => findLBAux user rs (processEntries user (requestEntries r) m)

/-- `GameSolver.find_leaderboard_data` (solver.py lines 439-468):
filter the captured exchanges by URL, then scan them in capture order,
merging entries into one mapping.  `user = none` is the code in this tree;
`user = some u` adds the spec-modelled per-user filter. -/
def findLeaderboardData (user : Option String)
    (requests : List (CapturedRequest LBBody)) : LBMap :=
  findLBAux user (requests.filter (fun r => lbUrlMatch r.url)) []

/-! Specification-level write sequence: the successful `leaderboard_data
[player_name] = player_score` assignments in scan order, used to state
last-write-wins. -/

/-- The sequence of (key, value) writes performed on one exchange's entry
list, in order; an extraction error ends the exchange's writes. -/
def entryWrites (user : Option String) : List LBEntry → List (Option String × PlayerScore)
  | [] => []
  | entry :: rest =>
    if entryAdmitted user entry then
      match extractEntry entry with
      | .error _ => []
      | .ok (name, score) => (name, score) :: entryWrites user rest
    else
      entryWrites user rest

/-- All writes performed by `find_leaderboard_data`, across the filtered
exchanges in capture order. -/
def lbWrites (user : Option String) (requests : List (CapturedRequest LBBody)) :
    List (Option String × PlayerScore) :=
  ((requests.filter (fun r => lbUrlMatch r.url)).map (fun r => entryWrites user (requestEntries r))).flatten

/-- The most recent write for key `k` in a write sequence. -/
def lastWrite {κ ν : Type} [DecidableEq κ] (k : κ) (writes : List (κ × ν)) : Option ν :=
  (writes.reverse.find? (fun p => decide (p.1 = k))).map (·.2)

/-- Replaying a write sequence onto a map with Python dict semantics. -/
def applyWrites {κ ν : Type} [DecidableEq κ] (m : List (κ × ν)) (writes : List (κ × ν)) :
    List (κ × ν) :=
  writes.foldl (fun acc p => pyDictInsert acc p.1 p.2) m

/-! ### Dictionary-model lemmas -/

theorem pyDictFind_cons {κ ν : Type} [DecidableEq κ] (q : κ × ν) (l : List (κ × ν)) (k' : κ) :
    pyDictFind (q :: l) k' = if q.1 = k' then some q.2 else pyDictFind l k' := by
  by_cases hq : q.1 = k'
  · unfold pyDictFind
    rw [List.find?_cons_of_pos _ (by simp [hq])]
    simp [hq]
  · unfold pyDictFind
    rw [List.find?_cons_of_neg _ (by simp [hq])]
    simp [hq]

theorem pyDictFind_mapUpdate {κ ν : Type} [DecidableEq κ] (m : List (κ × ν)) (k k' : κ) (v : ν) :
    pyDictFind (m.map (fun p => if p.1 = k then (k, v) else p)) k'
      = if k' = k then (if m.any (fun p => decide (p.1 = k)) then some v else none)
        else pyDictFind m k' := by
  induction m with
  | nil =>
    by_cases h : k' = k <;> simp [pyDictFind, h]
  | cons p ps ih =>
    rw [List.map_cons, pyDictFind_cons, pyDictFind_cons]
    by_cases hp : p.1 = k
    · rw [if_pos hp]
      by_cases hk : k' = k
      · simp [hk.symm, List.any_cons, hp]
      · have hk1 : ¬ (k, v).1 = k' := fun h => hk h.symm
        have hk2 : ¬ p.1 = k' := fun h => hk (h.symm.trans hp)
        rw [if_neg hk1, ih, if_neg hk, if_neg hk, if_neg hk2]
    · rw [if_neg hp]
      by_cases hpk : p.1 = k'
      · have hk : ¬ k' = k := fun h => hp (h ▸ hpk)
        rw [if_pos hpk, if_neg hk, if_pos hpk]
      · rw [if_neg hpk, ih]
        by_cases hk : k' = k
        · have hdp : decide (p.1 = k) = false := by simp [hp]
          rw [List.any_cons, hdp, Bool.false_or, if_pos hk, if_pos hk]
        · rw [if_neg hk, if_neg hk, if_neg hpk]

theorem pyDictFind_pyDictInsert {κ ν : Type} [DecidableEq κ] (m : List (κ × ν)) (k k' : κ) (v : ν) :
    pyDictFind (pyDictInsert m k v) k'
      = if k' = k then some v else pyDictFind m k' := by
  unfold pyDictInsert
  by_cases hany : m.any (fun p => decide (p.1 = k)) = true
  · rw [if_pos hany, pyDictFind_mapUpdate, hany]
    simp
  · rw [if_neg hany]
    have hnone : ∀ x ∈ m, ¬ (fun p : κ × ν => decide (p.1 = k)) x = true := by
      exact List.any_eq_false.mp (Bool.eq_false_iff.mpr hany)
    by_cases hk : k' = k
    · subst hk
      unfold pyDictFind
      rw [List.find?_append, List.find?_eq_none.mpr (by simpa using hnone)]
      simp
    · unfold pyDictFind
      rw [List.find?_append]
      have hkk : ¬ k = k' := fun h => hk h.symm
      have : List.find? (fun p : κ × ν => decide (p.1 = k')) [(k, v)] = none := by
        simp [List.find?, hkk]
      rw [this, Option.or_none, if_neg hk]

theorem mem_pyDictInsert {κ ν : Type} [DecidableEq κ] {m : List (κ × ν)} {k : κ} {v : ν}
    {p : κ × ν} (hp : p ∈ pyDictInsert m k v) : p = (k, v) ∨ p ∈ m := by
  unfold pyDictInsert at hp
  by_cases hany : m.any (fun q => decide (q.1 = k)) = true
  · rw [if_pos hany] at hp
    rcases List.mem_map.mp hp with ⟨q, hq, hfq⟩
    by_cases hqk : q.1 = k
    · left; rw [if_pos hqk] at hfq; exact hfq.symm
    · right; rw [if_neg hqk] at hfq; exact hfq ▸ hq
  · rw [if_neg hany] at hp
    rcases List.mem_append.mp hp with h | h
    · right; exact h
    · left; simpa using h

theorem keys_pyDictInsert_nodup {κ ν : Type} [DecidableEq κ] {m : List (κ × ν)} (k : κ) (v : ν)
    (hm : (m.map Prod.fst).Nodup) : ((pyDictInsert m k v).map Prod.fst).Nodup := by
  unfold pyDictInsert
  by_cases hany : m.any (fun q => decide (q.1 = k)) = true
  · rw [if_pos hany, List.map_map]
    have : m.map (Prod.fst ∘ fun p => if p.1 = k then (k, v) else p) = m.map Prod.fst := by
      refine List.map_congr_left (fun q _ => ?_)
      by_cases hqk : q.1 = k <;> simp [hqk]
    rw [this]; exact hm
  · rw [if_neg hany, List.map_append]
    have hnotmem : k ∉ m.map Prod.fst := by
      intro hk
      rcases List.mem_map.mp hk with ⟨q, hq, hfq⟩
      have := List.any_eq_false.mp (Bool.eq_false_iff.mpr hany) q hq
      simp [hfq] at this
    refine List.nodup_append.mpr ⟨hm, List.nodup_singleton k, ?_⟩
    intro a ha hb
    rcases List.mem_singleton.mp hb with rfl
    exact hnotmem ha

theorem applyWrites_append {κ ν : Type} [DecidableEq κ] (m : List (κ × ν))
    (ws ws' : List (κ × ν)) :
    applyWrites m (ws ++ ws') = applyWrites (applyWrites m ws) ws' := by
  simp [applyWrites, List.foldl_append]

theorem lastWrite_cons {κ ν : Type} [DecidableEq κ] (k : κ) (w : κ × ν) (ws : List (κ × ν)) :
    lastWrite k (w :: ws)
      = (lastWrite k ws).or (if w.1 = k then some w.2 else none) := by
  unfold lastWrite
  rw [List.reverse_cons, List.find?_append]
  by_cases hw : w.1 = k
  · cases h : List.find? (fun p : κ × ν => decide (p.1 = k)) ws.reverse <;>
      simp [h, List.find?, hw]
  · cases h : List.find? (fun p : κ × ν => decide (p.1 = k)) ws.reverse <;>
      simp [h, List.find?, hw]

theorem pyDictFind_applyWrites {κ ν : Type} [DecidableEq κ] (ws : List (κ × ν)) :
    ∀ (m : List (κ × ν)) (k : κ),
      pyDictFind (applyWrites m ws) k = (lastWrite k ws).or (pyDictFind m k) := by
  induction ws with
  | nil => intro m k; simp [applyWrites, lastWrite]
  | cons w ws ih =>
    intro m k
    have hstep : applyWrites m (w :: ws) = applyWrites (pyDictInsert m w.1 w.2) ws := rfl
    rw [hstep, ih, lastWrite_cons, Option.or_assoc, pyDictFind_pyDictInsert]
    by_cases hw : w.1 = k
    · subst hw
      cases hlw : lastWrite w.1 ws <;> simp [hlw]
    · have hkw : ¬ k = w.1 := fun h => hw h.symm
      cases hlw : lastWrite k ws <;> simp [hlw, hw, hkw]

theorem keys_applyWrites_nodup {κ ν : Type} [DecidableEq κ] (ws : List (κ × ν)) :
    ∀ m : List (κ × ν), (m.map Prod.fst).Nodup →
      ((applyWrites m ws).map Prod.fst).Nodup := by
  induction ws with
  | nil => intro m hm; exact hm
  | cons w ws ih =>
    intro m hm
    exact ih (pyDictInsert m w.1 w.2) (keys_pyDictInsert_nodup w.1 w.2 hm)

theorem mem_applyWrites {κ ν : Type} [DecidableEq κ] (ws : List (κ × ν)) :
    ∀ {m : List (κ × ν)} {p : κ × ν}, p ∈ applyWrites m ws → p ∈ ws ∨ p ∈ m := by
  induction ws with
  | nil => intro m p hp; right; exact hp
  | cons w ws ih =>
    intro m p hp
    have hstep : applyWrites m (w :: ws) = applyWrites (pyDictInsert m w.1 w.2) ws := rfl
    rw [hstep] at hp
    rcases ih hp with h | h
    · left; exact List.mem_cons_of_mem _ h
    · rcases mem_pyDictInsert h with rfl | h'
      · left; exact List.mem_cons_self _ _
      · right; exact h'

/-! ### Refinement of the aggregator to its write sequence -/

theorem processEntries_eq_applyWrites (user : Option String) :
    ∀ (entries : List LBEntry) (m : LBMap),
      processEntries user entries m = applyWrites m (entryWrites user entries) := by
  intro entries
  induction entries with
  | nil => intro m; rfl
  | cons entry rest ih =>
    intro m
    unfold processEntries entryWrites
    by_cases hadm : entryAdmitted user entry = true
    · rw [if_pos hadm, if_pos hadm]
      cases hex : extractEntry entry with
      | error e => rfl
      | ok kv => cases kv with
        | mk name score => exact ih (pyDictInsert m name score)
    · rw [if_neg hadm, if_neg hadm]
      exact ih m

theorem findLBAux_eq_applyWrites (user : Option String) :
    ∀ (rs : List (CapturedRequest LBBody)) (m : LBMap),
      findLBAux user rs m
        = applyWrites m ((rs.map (fun r => entryWrites user (requestEntries r))).flatten) := by
  intro rs
  induction rs with
  | nil => intro m; rfl
  | cons r rs ih =>
    intro m
    unfold findLBAux
    rw [ih, List.map_cons, List.flatten_cons, applyWrites_append,
      processEntries_eq_applyWrites]

theorem findLeaderboardData_eq_applyWrites (user : Option String)
    (requests : List (CapturedRequest LBBody)) :
    findLeaderboardData user requests = applyWrites [] (lbWrites user requests) := by
  unfold findLeaderboardData lbWrites
  exact findLBAux_eq_applyWrites user _ []

theorem mem_entryWrites (user : Option String) :
    ∀ {entries : List LBEntry} {w : Option String × PlayerScore},
      w ∈ entryWrites user entries →
      ∃ e ∈ entries, entryAdmitted user e = true ∧ extractEntry e = .ok w := by
  intro entries
  induction entries with
  | nil => intro w hw; simp [entryWrites] at hw
  | cons entry rest ih =>
    intro w hw
    unfold entryWrites at hw
    by_cases hadm : entryAdmitted user entry = true
    · rw [if_pos hadm] at hw
      cases hex : extractEntry entry with
      | error e => rw [hex] at hw; simp at hw
      | ok kv =>
        rw [hex] at hw
        rcases List.mem_cons.mp hw with rfl | h
        · exact ⟨entry, List.mem_cons_self _ _, hadm, hex⟩
        · rcases ih h with ⟨e, he, h1, h2⟩
          exact ⟨e, List.mem_cons_of_mem _ he, h1, h2⟩
    · rw [if_neg hadm] at hw
      rcases ih hw with ⟨e, he, h1, h2⟩
      exact ⟨e, List.mem_cons_of_mem _ he, h1, h2⟩

/-! ## CSRF token extraction

`GameSolver.extract_csrf_token` (solver.py lines 108-116): scan the cookie
store for the cookie named exactly `JSESSIONID`, return its value with the
surrounding `"` characters stripped, or `None` when absent.
-/

/-- One cookie of the browser's cookie store. -/
structure Cookie where
  name : String
  value : String
  deriving DecidableEq

/-- `GameSolver.extract_csrf_token` (solver.py lines 108-116). -/
def extractCsrfToken : List Cookie → Option String
  | [] => none
  | cookie :: rest =>
    if cookie.name = "JSESSIONID" then some (pyStrip '"' cookie.value)
    else extractCsrfToken rest

/-! ## Leaderboard fetch URL and its date arithmetic

`GameSolver.get_leaderboard_via_fetch` (solver.py lines 350-381) builds the
request URL from `url_start`, the game id, the day count and `url_end`.
The day-count computation below is **modelled from the spec**: the variant
of `get_leaderboard_via_fetch` that `main.py`'s `GameSolver(user=...)`
session uses is absent from this tree, and per the spec it computes "days
elapsed since the game's fixed launch date, computed against either the
current time or an explicitly supplied target date, anchored at a fixed
time-of-day (09:00)".  Calendar dates are abstracted as integer day
ordinals; a datetime is a day ordinal plus a minute-of-day.
-/

/-- `GameSolver.GAME_START_DATES` (solver.py lines 332-339). -/
def GAME_START_DATES : List (String × String) :=
  [("pinpoint", "2024-04-30"), ("crossclimb", "2024-04-30"),
   ("zip", "2025-03-17"), ("tango", "2024-10-07"),
   ("queens", "2024-04-30"), ("mini_sudoku", "2025-08-11")]

/-- `GameSolver.GAME_IDS` (solver.py lines 341-348). -/
def GAME_IDS : List (String × String) :=
  [("pinpoint", "1"), ("crossclimb", "2"), ("zip", "6"),
   ("tango", "5"), ("queens", "3"), ("mini_sudoku", "7")]

/-- `url_start` (solver.py line 355). -/
def lbUrlStart : String :=
  "https://www.linkedin.com/voyager/api/graphql?includeWebMetadata=true&variables=(gameUrn:urn%3Ali%3Afsd_game%3A%28ACoAAB2OIy0BU3BCAj3aSGwYj-CXoaCWMMVl0s0%2C"

/-- `url_end` (solver.py line 356). -/
def lbUrlEnd : String :=
  "%29,start:0,count:15)&queryId=voyagerIdentityDashGameConnectionsEntities.370a22a07dce5feba0a603ed03e4c908"

/-- A Python naive `datetime`, abstracted to a calendar-day ordinal and a
minute-of-day. -/
structure PyDatetime where
  day : Int
  minuteOfDay : Nat
  deriving DecidableEq

/-- Modelled from the spec: a calendar day anchored at the fixed
time-of-day 09:00, in minutes. -/
def anchor0900 (day : Int) : Int :=
  day * 1440 + 9 * 60

/-- Python `timedelta.days`: a minute difference floored to whole days. -/
def timedeltaDays (minutes : Int) : Int :=
  minutes.fdiv 1440

/-- Modelled from the spec: the "days elapsed since the game's fixed launch
date" parameter, computed against the explicitly supplied target day when
given and against the current time otherwise, both endpoints anchored at
09:00. -/
def leaderboardDayParam (startDay : Int) (now : PyDatetime) (targetDay : Option Int) : Int :=
  timedeltaDays (anchor0900 (targetDay.getD now.day) - anchor0900 startDay)

/-- The URL construction of `get_leaderboard_via_fetch` (solver.py lines
355-370), with the day parameter computed as the spec describes
(see `leaderboardDayParam`).  `parseDate` abstracts
`datetime.strptime(..., "%Y-%m-%d")` into a day ordinal; a game without a
start date returns `none` (line 362), as does a game outside `GAME_IDS`
(the `KeyError` raised inside the guarded block of lines 367-381). -/
def getLeaderboardFetchUrl (game : String) (parseDate : String → Int)
    (now : PyDatetime) (targetDay : Option Int) : Option String :=
  match GAME_START_DATES.lookup game with
  | none => none
  | some startStr =>
    match GAME_IDS.lookup game with
    | none => none
    | some gid =>
      some (lbUrlStart ++ gid ++ "%2C"
        ++ toString (leaderboardDayParam (parseDate startStr) now targetDay)
        ++ lbUrlEnd)


/-! ## Classifier lemmas and claim C1 -/

theorem urlMatchesGame_no_pages {gameTypeId : Nat} {url : String}
    (h : urlMatchesGame gameTypeId url = true) :
    pyInStr "voyagerIdentityDashGamesPages" url = false := by
  unfold urlMatchesGame at h
  simp only [Bool.and_eq_true, Bool.not_eq_true'] at h
  exact h.2

theorem eligibleRequest_urlMatches {V : Type} {gameTypeId : Nat} {r : CapturedRequest V}
    (h : eligibleRequest gameTypeId r = true) :
    urlMatchesGame gameTypeId r.url = true := by
  unfold eligibleRequest at h
  exact (Bool.and_eq_true _ _ |>.mp h).2

/-- C1: the exchange classifier considers only exchanges with a populated
response whose URL contains the puzzle-data endpoint token, the target
game-type identifier and the games-data family token while not containing
the games-pages family token; whenever the first such exchange has a
decodable body, that body is exactly what the classifier returns, and every
returned body comes from such an exchange — in particular never from one of
the pages query family. -/
theorem findGameResponse_spec (V : Type) (gameTypeId : Nat)
    (requests : List (CapturedRequest V)) :
    (∀ v, findGameResponse gameTypeId requests = some v →
      ∃ r ∈ requests, r.response = some (some v)
        ∧ urlMatchesGame gameTypeId r.url = true
        ∧ pyInStr "voyagerIdentityDashGamesPages" r.url = false) ∧
    (∀ (front : List (CapturedRequest V)) (r : CapturedRequest V)
        (back : List (CapturedRequest V)),
      requests = front ++ r :: back →
      (∀ r' ∈ front, eligibleRequest gameTypeId r' = false) →
      eligibleRequest gameTypeId r = true →
      ∀ v, r.response = some (some v) →
      findGameResponse gameTypeId requests = some v) := by
  constructor
  · induction requests with
    | nil => intro v h; simp [findGameResponse] at h
    | cons r rs ih =>
      intro v h
      cases hresp : r.response with
      | none =>
        simp only [findGameResponse, hresp] at h
        rcases ih v h with ⟨r', hr', hs⟩
        exact ⟨r', List.mem_cons_of_mem _ hr', hs⟩
      | some body =>
        by_cases hurl : urlMatchesGame gameTypeId r.url = true
        · cases body with
          | some w =>
            simp only [findGameResponse, hresp, hurl, if_true] at h
            have hw : w = v := Option.some.inj h
            subst hw
            exact ⟨r, List.mem_cons_self _ _, hresp, hurl, urlMatchesGame_no_pages hurl⟩
          | none =>
            simp only [findGameResponse, hresp, hurl, if_true] at h
            rcases ih v h with ⟨r', hr', hs⟩
            exact ⟨r', List.mem_cons_of_mem _ hr', hs⟩
        · simp only [findGameResponse, hresp, hurl, if_false] at h
          rcases ih v h with ⟨r', hr', hs⟩
          exact ⟨r', List.mem_cons_of_mem _ hr', hs⟩
  · intro front r back heq hfront helig v hv
    subst heq
    revert hfront
    induction front with
    | nil =>
      intro _
      have hurl := eligibleRequest_urlMatches helig
      simp [findGameResponse, hv, hurl]
    | cons a front ih =>
      intro hfront
      have ha := hfront a (List.mem_cons_self _ _)
      have htail : ∀ r' ∈ front, eligibleRequest gameTypeId r' = false :=
        fun r' h => hfront r' (List.mem_cons_of_mem _ h)
      cases haresp : a.response with
      | none =>
        simp only [List.cons_append, findGameResponse, haresp]
        exact ih htail
      | some b =>
        have hurla : urlMatchesGame gameTypeId a.url = false := by
          unfold eligibleRequest at ha
          rw [haresp] at ha
          simpa using ha
        simp only [List.cons_append, findGameResponse, haresp, hurla, if_false]
        exact ih htail

/-- Concrete snapshot for C1's witness: a pages-family exchange (whose URL
contains the games-data token as a substring of the pages token), an
exchange with no response, then an eligible exchange. -/
def cexPagesRequest : CapturedRequest Nat :=
  { url := "https://x/voyager/api/graphql?q=(gameTypeId:5)&queryId=voyagerIdentityDashGamesPages.a"
    response := some (some 7) }

/-- A matching URL whose exchange has no response yet. -/
def cexNoResponseRequest : CapturedRequest Nat :=
  { url := "https://x/voyager/api/graphql?q=(gameTypeId:5)&queryId=voyagerIdentityDashGames.b"
    response := none }

/-- The first eligible exchange of the witness snapshot. -/
def cexGoodRequest : CapturedRequest Nat :=
  { url := "https://x/voyager/api/graphql?q=(gameTypeId:5)&queryId=voyagerIdentityDashGames.c"
    response := some (some 42) }

/-- C1 witness: on the concrete snapshot the classifier skips the
pages-family exchange and the response-less exchange and returns the body
of the eligible one. -/
theorem findGameResponse_spec_witness :
    findGameResponse 5 [cexPagesRequest, cexNoResponseRequest, cexGoodRequest] = some 42 :=
  (findGameResponse_spec Nat 5 [cexPagesRequest, cexNoResponseRequest, cexGoodRequest]).2
    [cexPagesRequest, cexNoResponseRequest] cexGoodRequest [] rfl
    (by decide) (by decide) 42 rfl

/-! ## Claim C9: CSRF token extraction -/

/-- C9: `extract_csrf_token` returns the value of the cookie named exactly
`JSESSIONID` — the first such cookie in store order — with surrounding
double-quote characters stripped, and returns `None` (without raising)
whenever no cookie of that exact name is present. -/
theorem extractCsrfToken_spec (cookies : List Cookie) :
    ((∀ c ∈ cookies, c.name ≠ "JSESSIONID") → extractCsrfToken cookies = none) ∧
    (∀ (front : List Cookie) (c : Cookie) (back : List Cookie),
      cookies = front ++ c :: back →
      c.name = "JSESSIONID" →
      (∀ c' ∈ front, c'.name ≠ "JSESSIONID") →
      extractCsrfToken cookies = some (pyStrip '"' c.value)) := by
  constructor
  · induction cookies with
    | nil => intro _; rfl
    | cons a rest ih =>
      intro h
      have ha := h a (List.mem_cons_self _ _)
      simp only [extractCsrfToken, ha, if_false]
      exact ih (fun c hc => h c (List.mem_cons_of_mem _ hc))
  · intro front c back heq hc hfront
    subst heq
    revert hfront
    induction front with
    | nil =>
      intro _
      simp [extractCsrfToken, hc]
    | cons a front ih =>
      intro hfront
      have ha := hfront a (List.mem_cons_self _ _)
      simp only [List.cons_append, extractCsrfToken, ha, if_false]
      exact ih (fun c' h => hfront c' (List.mem_cons_of_mem _ h))

/-- C9 witness: a store whose second cookie is `JSESSIONID` with a quoted
value yields the unquoted value, and a store without a `JSESSIONID` cookie
yields `none`. -/
theorem extractCsrfToken_spec_witness :
    extractCsrfToken [⟨"lang", "en"⟩, ⟨"JSESSIONID", "\"ajax:123\""⟩] = some "ajax:123" ∧
    extractCsrfToken [⟨"lang", "en"⟩, ⟨"jsessionid", "\"x\""⟩] = none :=
  ⟨(extractCsrfToken_spec [⟨"lang", "en"⟩, ⟨"JSESSIONID", "\"ajax:123\""⟩]).2
      [⟨"lang", "en"⟩] ⟨"JSESSIONID", "\"ajax:123\""⟩ [] rfl rfl (by decide),
   (extractCsrfToken_spec [⟨"lang", "en"⟩, ⟨"jsessionid", "\"x\""⟩]).1 (by decide)⟩

/-! ## Claim C3: Tango decoding -/

theorem tangoFromTokens_foldl (xs : List Json) :
    ∀ acc : String,
      (xs.foldl
          (fun solution item =>
            if item.eqStr "ONE" then solution ++ "1" else solution ++ "0") acc).data
        = acc.data ++ xs.map (fun item => if item.eqStr "ONE" then '1' else '0') := by
  induction xs with
  | nil => intro acc; simp
  | cons x xs ih =>
    intro acc
    rw [List.foldl_cons, List.map_cons]
    by_cases hx : x.eqStr "ONE" = true
    · rw [if_pos hx, if_pos hx, ih, String.data_append]
      simp
    · rw [if_neg hx, if_neg hx, ih, String.data_append]
      simp

/-- C3: the Tango decoder maps a token sequence to a string of the same
length, sending each token equal to the JSON string `"ONE"` to `'1'` and
every other token value to `'0'` (see `Json.eqStr`); on the spec's concrete
example exchange it returns `"101"`. -/
theorem tangoSolution_spec (xs : List Json) :
    (tangoFromTokens xs).length = xs.length ∧
    (tangoFromTokens xs).data = xs.map (fun item => if item.eqStr "ONE" then '1' else '0') ∧
    findTangoSolution [tangoExampleRequest] = some "101" := by
  have hdata : (tangoFromTokens xs).data
      = xs.map (fun item => if item.eqStr "ONE" then '1' else '0') := by
    have := tangoFromTokens_foldl xs ""
    simpa [tangoFromTokens] using this
  refine ⟨?_, hdata, ?_⟩
  · have hlen : (tangoFromTokens xs).length = (tangoFromTokens xs).data.length := rfl
    rw [hlen, hdata, List.length_map]
  · rfl

/-! ## Claim C8: Mini Sudoku row partition -/

theorem flatten_range_chunks (gs : Nat) :
    ∀ (n : Nat) (l : List Nat),
      ((List.range n).map (fun i => (l.drop (i * gs)).take gs)).flatten
        = l.take (n * gs) := by
  intro n
  induction n with
  | zero => intro l; simp
  | succ n ih =>
    intro l
    rw [List.range_succ_eq_map, List.map_cons, List.flatten_cons, List.map_map]
    have hhead : (l.drop (0 * gs)).take gs = l.take gs := by simp
    have htail : (List.range n).map ((fun i => (l.drop (i * gs)).take gs) ∘ Nat.succ)
        = (List.range n).map (fun i => ((l.drop gs).drop (i * gs)).take gs) := by
      refine List.map_congr_left (fun i _ => ?_)
      have : (i + 1) * gs = gs + i * gs := by
        rw [Nat.succ_mul, Nat.add_comm]
      simp [Function.comp, List.drop_drop, Nat.succ_eq_add_one, this, Nat.add_comm]
    rw [hhead, htail, ih (l.drop gs), Nat.succ_mul, Nat.add_comm (n * gs) gs,
      List.take_add]

/-- C8: for every Mini Sudoku payload the stored record keeps the flat digit
sequence exactly as found in the payload (rows are computed only for
logging), and when the sequence fills the `gridSize × gridSize` board,
partitioning it into the logged rows and concatenating them recovers the
original flat sequence. -/
theorem miniSudokuStored_spec (sol : List Nat) (gsz : Option Nat)
    (pc : Option (List Nat)) (nm : Option String) :
    findMiniSudokuStored [miniExampleRequest ⟨some sol, gsz, pc, nm⟩]
      = some ⟨sol, gsz.getD 6, pc.getD [], nm.getD "Unknown"⟩ ∧
    (sol.length = gsz.getD 6 * gsz.getD 6 →
      (miniSudokuRows (gsz.getD 6) sol).flatten = sol) := by
  constructor
  · rfl
  · intro hlen
    unfold miniSudokuRows
    rw [flatten_range_chunks, ← hlen, List.take_length]

/-- C8 witness: a concrete 2×2 payload with flat solution `[1,2,3,4]` is
stored verbatim and its row partition concatenates back to it. -/
theorem miniSudokuStored_spec_witness :
    findMiniSudokuStored [miniExampleRequest ⟨some [1, 2, 3, 4], some 2, none, none⟩]
      = some ⟨[1, 2, 3, 4], 2, [], "Unknown"⟩ ∧
    (miniSudokuRows 2 [1, 2, 3, 4]).flatten = [1, 2, 3, 4] :=
  ⟨(miniSudokuStored_spec [1, 2, 3, 4] (some 2) none none).1,
   (miniSudokuStored_spec [1, 2, 3, 4] (some 2) none none).2 (by decide)⟩

/-! ## Claim C4: CrossClimb ordering -/

/-- Strict comparison on the rung sort key. -/
def rungLT (x y : Rung) : Prop :=
  x.solutionRungIndex < y.solutionRungIndex

instance : IsAntisymm Rung rungLT :=
  ⟨fun _ _ h h' => absurd h' (Nat.lt_asymm h)⟩

/-- C4 counterexample: two rungs sharing the rank 0.  The stable sort keeps
their relative capture order, so permuting the input changes the emitted
pair sequence — decoding is not invariant under arbitrary permutations. -/
theorem crossclimbSolution_order_sensitive :
    ([⟨0, "a"⟩, ⟨0, "b"⟩] : List Rung).Perm [⟨0, "b"⟩, ⟨0, "a"⟩] ∧
    crossclimbSolution [⟨0, "a"⟩, ⟨0, "b"⟩] ≠ crossclimbSolution [⟨0, "b"⟩, ⟨0, "a"⟩] := by
  constructor
  · exact List.Perm.swap _ _ _
  · decide

theorem sorted_lt_of_sorted_le_nodup {l : List Rung} (hs : l.Sorted rungLE)
    (hn : (l.map Rung.solutionRungIndex).Nodup) : l.Sorted rungLT := by
  have hne : l.Pairwise (fun a b => a.solutionRungIndex ≠ b.solutionRungIndex) :=
    List.pairwise_map.mp hn
  exact (List.Pairwise.and hs hne).imp (fun h => Nat.lt_of_le_of_ne h.1 h.2)

/-- C4 (amended): for every list of crossclimb rungs the decoder emits the
`(rank, word)` pairs sorted by ascending rank, and — provided the rungs
carry pairwise-distinct ranks — the output is invariant under permutations
of the input rung list.  (With duplicate ranks the stable sort preserves
capture order, see `crossclimbSolution_order_sensitive`.) -/
theorem crossclimbSolution_spec (rungs rungs' : List Rung) :
    (crossclimbSolution rungs).Pairwise (fun p q => p.1 ≤ q.1) ∧
    (rungs'.Perm rungs → (rungs.map Rung.solutionRungIndex).Nodup →
      crossclimbSolution rungs' = crossclimbSolution rungs) := by
  constructor
  · unfold crossclimbSolution
    rw [List.pairwise_map]
    exact List.sorted_insertionSort rungLE rungs
  · intro hperm hnodup
    have hp : (rungs'.insertionSort rungLE).Perm (rungs.insertionSort rungLE) :=
      ((List.perm_insertionSort rungLE rungs').trans hperm).trans
        (List.perm_insertionSort rungLE rungs).symm
    have hnodup1 : ((rungs.insertionSort rungLE).map Rung.solutionRungIndex).Nodup :=
      (((List.perm_insertionSort rungLE rungs).map Rung.solutionRungIndex).nodup_iff).mpr hnodup
    have hnodup2 : ((rungs'.insertionSort rungLE).map Rung.solutionRungIndex).Nodup :=
      ((hp.map Rung.solutionRungIndex).nodup_iff).mpr hnodup1
    have hsort1 : (rungs.insertionSort rungLE).Sorted rungLT :=
      sorted_lt_of_sorted_le_nodup (List.sorted_insertionSort rungLE rungs) hnodup1
    have hsort2 : (rungs'.insertionSort rungLE).Sorted rungLT :=
      sorted_lt_of_sorted_le_nodup (List.sorted_insertionSort rungLE rungs') hnodup2
    unfold crossclimbSolution
    exact congrArg _ (List.eq_of_perm_of_sorted hp hsort2 hsort1)

/-- C4 witness: on two distinct-rank rungs the sorted output is emitted and
a permutation of the input produces the identical output. -/
theorem crossclimbSolution_spec_witness :
    (crossclimbSolution [⟨1, "b"⟩, ⟨0, "a"⟩]).Pairwise (fun p q => p.1 ≤ q.1) ∧
    crossclimbSolution [⟨0, "a"⟩, ⟨1, "b"⟩] = crossclimbSolution [⟨1, "b"⟩, ⟨0, "a"⟩] :=
  ⟨(crossclimbSolution_spec [⟨1, "b"⟩, ⟨0, "a"⟩] [⟨0, "a"⟩, ⟨1, "b"⟩]).1,
   (crossclimbSolution_spec [⟨1, "b"⟩, ⟨0, "a"⟩] [⟨0, "a"⟩, ⟨1, "b"⟩]).2
     (by decide) (by decide)⟩

/-! ## Concrete leaderboard exchanges for the examples -/

/-- A URL matching the leaderboard request filter (second known query id). -/
def lbExampleUrl : String :=
  "https://www.linkedin.com/voyager/api/graphql?includeWebMetadata=true&queryId=voyagerIdentityDashGameConnectionsEntities.370a22a07dce5feba0a603ed03e4c908"

/-- A fully-populated leaderboard entry. -/
def mkLBEntry (name urn : String) (t g : Int) (fl : Bool) : LBEntry :=
  ⟨some ⟨some ⟨some ⟨some name⟩⟩, urn⟩, some ⟨some t, some g⟩, some fl⟩

/-- A captured leaderboard exchange (matching URL, decodable body) exposing
the given entries under the opted-in field name. -/
def mkLBRequest (entries : List LBEntry) : CapturedRequest LBBody :=
  { url := lbExampleUrl
    response := some (some ⟨some ⟨some ⟨some entries⟩, none⟩⟩) }

/-! ## Claim C5: last-write-wins merging -/

/-- C5: the merged mapping holds, for every player name, exactly the value
of the last successful write in scan order (so several exchanges
contributing the same name resolve to the exchange scanned last); on the
spec's concrete example, the second exchange's updated score for `"Mads"`
is the only one kept. -/
theorem findLeaderboardData_lastWriteWins (user : Option String)
    (requests : List (CapturedRequest LBBody)) (name : Option String) :
    pyDictFind (findLeaderboardData user requests) name
      = lastWrite name (lbWrites user requests) ∧
    findLeaderboardData none
        [mkLBRequest [mkLBEntry "Mads" "urn:li:mads" 120 3 false],
         mkLBRequest [mkLBEntry "Mads" "urn:li:mads" 95 2 true]]
      = [(some "Mads", ⟨some 95, some 2, some true⟩)] := by
  constructor
  · rw [findLeaderboardData_eq_applyWrites, pyDictFind_applyWrites]
    have hnil : pyDictFind ([] : LBMap) name = none := rfl
    rw [hnil, Option.or_none]
  · rfl

/-! ## Claim C10: the mapping is keyed solely by first name -/

/-- C10: the leaderboard mapping is keyed solely by the extracted first
name — its key list is duplicate-free for every snapshot — and two distinct
players (different identity URNs) sharing a first name inside one exchange
collapse to a single record holding the score scanned last. -/
theorem findLeaderboardData_keyedByFirstName (user : Option String)
    (requests : List (CapturedRequest LBBody)) :
    ((findLeaderboardData user requests).map Prod.fst).Nodup ∧
    findLeaderboardData none
        [mkLBRequest [mkLBEntry "Ann" "urn:li:ann1" 100 1 true,
                      mkLBEntry "Bob" "urn:li:bob" 80 2 false,
                      mkLBEntry "Ann" "urn:li:ann2" 60 3 false]]
      = [(some "Ann", ⟨some 60, some 3, some false⟩),
         (some "Bob", ⟨some 80, some 2, some false⟩)] := by
  constructor
  · rw [findLeaderboardData_eq_applyWrites]
    exact keys_applyWrites_nodup _ [] (by simp)
  · rfl

/-! ## Claim C6: the per-user filter (spec-modelled) -/

/-- C6: with the per-user filter active, every record of the output mapping
was produced by an input entry whose player identity token contains the
configured user's identity substring case-insensitively (the filter itself
is modelled from the spec, see `passesUserFilter`). -/
theorem findLeaderboardData_userFilter (u : String)
    (requests : List (CapturedRequest LBBody)) (kv : Option String × PlayerScore)
    (hkv : kv ∈ findLeaderboardData (some u) requests) :
    ∃ r ∈ requests, lbUrlMatch r.url = true ∧
      ∃ e ∈ requestEntries r, passesUserFilter u e = true ∧ extractEntry e = .ok kv := by
  rw [findLeaderboardData_eq_applyWrites] at hkv
  rcases mem_applyWrites _ hkv with hw | hw
  · unfold lbWrites at hw
    rcases List.mem_flatten.mp hw with ⟨ws, hws, hkvws⟩
    rcases List.mem_map.mp hws with ⟨r, hr, rfl⟩
    rcases List.mem_filter.mp hr with ⟨hrmem, hrurl⟩
    rcases mem_entryWrites (some u) hkvws with ⟨e, he, hadm, hex⟩
    exact ⟨r, hrmem, hrurl, e, he, hadm, hex⟩
  · simp at hw

/-- C6 witness: with user `"SEB"` active, the single surviving record comes
from the entry whose URN contains `seb`; the non-matching entry is skipped. -/
theorem findLeaderboardData_userFilter_witness :
    ∃ r ∈ [mkLBRequest [mkLBEntry "Sebastian" "urn:li:seb123" 94 1 true,
                        mkLBEntry "Mads" "urn:li:mads" 95 2 true]],
      lbUrlMatch r.url = true ∧
      ∃ e ∈ requestEntries r, passesUserFilter "SEB" e = true ∧
        extractEntry e = .ok (some "Sebastian", ⟨some 94, some 1, some true⟩) :=
  findLeaderboardData_userFilter "SEB"
    [mkLBRequest [mkLBEntry "Sebastian" "urn:li:seb123" 94 1 true,
                  mkLBEntry "Mads" "urn:li:mads" 95 2 true]]
    (some "Sebastian", ⟨some 94, some 1, some true⟩) (by decide)

/-! ## Claim C2: behaviour on a score-less (placeholder) entry -/

/-- C2 (bug evaluation): a leaderboard exchange listing a placeholder entry
(no `gameScore` sub-object) followed by a well-formed entry produces the
empty mapping: the chained `.get` raises `AttributeError`, caught only by
the per-exchange handler, so the well-formed entry is lost even though it
extracts cleanly on its own.  Scanning of later exchanges does continue,
and entries merged before the failure are kept. -/
theorem findLeaderboardData_placeholder_aborts :
    extractEntry (mkLBEntry "Sebastian" "urn:li:seb123" 94 1 true)
      = .ok (some "Sebastian", ⟨some 94, some 1, some true⟩) ∧
    findLeaderboardData none
        [mkLBRequest [⟨some ⟨some ⟨some ⟨some "Pending"⟩⟩, "urn:li:pending"⟩, none, none⟩,
                      mkLBEntry "Sebastian" "urn:li:seb123" 94 1 true]]
      = [] ∧
    findLeaderboardData none
        [mkLBRequest [mkLBEntry "Mads" "urn:li:mads" 95 2 true],
         mkLBRequest [⟨some ⟨some ⟨some ⟨some "Pending"⟩⟩, "urn:li:pending"⟩, none, none⟩]]
      = [(some "Mads", ⟨some 95, some 2, some true⟩)] :=
  ⟨rfl, rfl, rfl⟩

/-! ## Claim C7: leaderboard fetch day parameter (spec-modelled) -/

/-- C7: the leaderboard request URL's day parameter equals the number of
days elapsed since the game's launch date — the difference of the two
day ordinals — whether computed against the current time (`targetDay =
none`) or an explicitly supplied target date, both endpoints anchored at
09:00 (`anchor0900`; the date arithmetic is modelled from the spec). -/
theorem getLeaderboardFetchUrl_spec (game : String) (parseDate : String → Int)
    (now : PyDatetime) (targetDay : Option Int) (startStr gid : String)
    (h1 : GAME_START_DATES.lookup game = some startStr)
    (h2 : GAME_IDS.lookup game = some gid) :
    leaderboardDayParam (parseDate startStr) now targetDay
      = targetDay.getD now.day - parseDate startStr ∧
    getLeaderboardFetchUrl game parseDate now targetDay
      = some (lbUrlStart ++ gid ++ "%2C"
          ++ toString (targetDay.getD now.day - parseDate startStr) ++ lbUrlEnd) := by
  have hday : leaderboardDayParam (parseDate startStr) now targetDay
      = targetDay.getD now.day - parseDate startStr := by
    unfold leaderboardDayParam anchor0900 timedeltaDays
    have harith : targetDay.getD now.day * 1440 + 9 * 60 - (parseDate startStr * 1440 + 9 * 60)
        = (targetDay.getD now.day - parseDate startStr) * 1440 := by ring
    rw [harith, Int.mul_fdiv_cancel _ (by norm_num)]
  refine ⟨hday, ?_⟩
  unfold getLeaderboardFetchUrl
  rw [h1, h2]
  simp [hday]

/-- C7 witness: for `tango` (launch ordinal 739166 under the concrete date
parser) and a current day ordinal 739266, the built URL carries day
parameter 100 regardless of the current minute-of-day. -/
theorem getLeaderboardFetchUrl_spec_witness :
    getLeaderboardFetchUrl "tango" (fun _ => 739166) ⟨739266, 37⟩ none
      = some (lbUrlStart ++ "5" ++ "%2C" ++ toString (100 : Int) ++ lbUrlEnd) :=
  (getLeaderboardFetchUrl_spec "tango" (fun _ => 739166) ⟨739266, 37⟩ none
    "2024-10-07" "5" rfl rfl).2
